import Mathlib

/-!
Verification development for the swyft nested ratio estimation core.

The definitions below are shallow embeddings of the Python sources:
  * `hasFailed`, `runModelChunk` embed `swyft/store/simulator.py`
    (`_has_failed`, `_run_model_chunk`);
  * the `NRState`/`stepRound`/`runLoop` development embeds
    `NestedRatios.run` and `NestedRatios._amortize` from `swyft/interface.py`;
  * `listMax`, `maskIncludes`, `getMaskedPoints` embed `Prior.get_masked`
    from `swyft/marginals/prior.py`;
  * `mkPrior1d`, `mkPrior`, `Prior.state_dict`, `Prior.from_state_dict`
    embed the serialization layer of `swyft/marginals/prior.py`;
  * `mkPoints`, `Points.getitem` embed the `Points` dataset of
    `swyft/estimation.py`;
  * `rejection_sample` embeds `PosteriorCollection.rejection_sample` from
    `swyft/inference/posteriors.py`.

Python exceptions are modelled with `Except PyErr`; numpy floats are
modelled as real numbers; external collaborators (the dask cluster, the
neural ratio estimator, the random source) appear as explicit oracle
parameters.
-/

/-- Python exception kinds that the embedded code can raise. -/
inductive PyErr where
  | assertionError
  | attributeError
  | indexError
  | keyError
  | runtimeError
  | valueError
deriving DecidableEq

/-! ### Simulator adapter (`swyft/store/simulator.py`) -/

/-- the `SimulationStatus` IntEnum of `simulator.py`. -/
inductive SimulationStatus where
  | PENDING
  | RUNNING
  | FINISHED
  | FAILED
deriving DecidableEq

/-- the integer value of each `SimulationStatus` member. -/
def SimulationStatus.toNat : SimulationStatus → Nat
  | .PENDING => 0
  | .RUNNING => 1
  | .FINISHED => 2
  | .FAILED => 3

/-- Python truthiness of the IntEnum value (`if _failed:` and the numpy
bool cast `has_failed[i] = _failed` both use it): an IntEnum is truthy
exactly when its integer value is nonzero. -/
def SimulationStatus.truthy (s : SimulationStatus) : Bool := s.toNat != 0

/-- one value of a simulator result dictionary; `_has_failed` observes only
whether the value `is None` and whether all its entries are finite, so a
value is embedded by those two observations. -/
inductive SimValue where
  | noneVal : SimValue
  | num : Bool → SimValue
deriving DecidableEq

/-- the `v is None` test of `_has_failed`. -/
def SimValue.isNone : SimValue → Bool
  | .noneVal => true
  | .num _ => false

/-- finiteness of a value (`noneVal` is unreachable in the branch that
reads it, see `hasFailed`). -/
def SimValue.finite : SimValue → Bool
  | .noneVal => false
  | .num f => f

/-- a simulator model result: a dictionary of named values, or something
that is not a dictionary. -/
inductive ModelOut where
  | dict : List (String × SimValue) → ModelOut
  | nonDict : ModelOut
deriving DecidableEq

/-- the entries of a dictionary result (`nonDict` never reaches the reads). -/
def ModelOut.entries : ModelOut → List (String × SimValue)
  | .dict xs => xs
  | .nonDict => []

/-- the `any([v is None for v in x.values()])` test of `_has_failed`. -/
def containsMissing (xs : List (String × SimValue)) : Bool :=
  xs.any (fun kv => kv.2.isNone)

/-- the `all_finite(x)` test (`swyft/utils`): every value finite. -/
def allFinite (xs : List (String × SimValue)) : Bool :=
  xs.all (fun kv => kv.2.finite)

/-- embedding of `_has_failed(x, fail_on_non_finite)`: `assert
isinstance(x, dict)` raises `AssertionError` on a non-dictionary; a
dictionary with a `None` value is `FAILED`; with `fail_on_non_finite`
set, a non-finite value is `FAILED`; otherwise `FINISHED`. -/
def hasFailed (x : ModelOut) (failOnNonFinite : Bool) :
    Except PyErr SimulationStatus :=
  match x with
  | .nonDict => .error .assertionError
  | .dict xs =>
    if containsMissing xs then .ok .FAILED
    else if failOnNonFinite && !(allFinite xs) then .ok .FAILED
    else .ok .FINISHED

/-- embedding of `_run_model_chunk(z, model, sim_shapes,
fail_on_non_finite)`.  The model is invoked once per point (an exception
propagates and aborts the whole chunk, as in the Python `for` loop); the
result array `x` starts as NaN placeholders (`none` here) and position
`i` is written only under `if _failed:`; `has_failed[i] = _failed` stores
the numpy bool cast of the IntEnum. -/
def runModelChunk (z : List Nat) (model : Nat → Except PyErr ModelOut)
    (failOnNonFinite : Bool) :
    Except PyErr (List (Option (List (String × SimValue))) × List Bool) :=
  match z with
  | [] => .ok ([], [])
  | zi :: rest =>
    match model zi with
    | .error e => .error e
    | .ok out =>
      match hasFailed out failOnNonFinite with
      | .error e => .error e
      | .ok st =>
        match runModelChunk rest model failOnNonFinite with
        | .error e => .error e
        | .ok (xs, hf) =>
          if st.truthy then .ok (some out.entries :: xs, true :: hf)
          else .ok (none :: xs, false :: hf)

/-! ### The `Points` dataset (`swyft/estimation.py`) -/

/-- the slice of the cache that `Points` reads: observation and parameter
arrays, the pending-simulation flag, and the index set that
`cache.sample(intensity)` returns for the dataset's intensity. -/
structure PCache (X Z : Type) where
  x : List X
  z : List Z
  requiresSim : Bool
  sampleResult : List Nat

/-- a constructed `Points` object: `__init__` stores `cache`,
`intensity`, `noisehook` and sets `_indices = None`. -/
structure PointsObj (X Z I : Type) where
  cache : PCache X Z
  intensity : I
  noisehook : Option (X → Z → X)
  indicesCache : Option (List Nat)

/-- embedding of `Points.__init__`: raises `RuntimeError` when the cache
still requires simulation, otherwise stores the constructor arguments. -/
def mkPoints {X Z I : Type} (cache : PCache X Z) (intensity : I)
    (noisehook : Option (X → Z → X)) : Except PyErr (PointsObj X Z I) :=
  if cache.requiresSim then .error .runtimeError
  else .ok ⟨cache, intensity, noisehook, none⟩

/-- the instance attributes ever assigned on a `Points` object: exactly
the four assignments of `__init__` (`self.cache`, `self.intensity`,
`self.noisehook`, `self._indices`); no other code path assigns a `Points`
attribute, in particular none assigns `noisemodel`. -/
def pointsInstanceAttrs : List String :=
  ["cache", "intensity", "noisehook", "_indices"]

/-- the `indices` cached property: `self._indices` if already set, else
`self.cache.sample(self.intensity)`. -/
def Points.indices {X Z I : Type} (p : PointsObj X Z I) : List Nat :=
  match p.indicesCache with
  | some l => l
  | none => p.cache.sampleResult

/-- embedding of `Points.__getitem__(idx)`: reads `i = self.indices[idx]`,
`x = self.cache.x[i]`, `z = self.cache.z[i]`, then reads
`self.noisemodel` — an attribute that is never assigned (see
`pointsInstanceAttrs`), so the read raises `AttributeError`. -/
def Points.getitem {X Z I : Type} (p : PointsObj X Z I) (idx : Nat) :
    Except PyErr (X × Z) :=
  match (Points.indices p)[idx]? with
  | none => .error .indexError
  | some i =>
    match p.cache.x[i]?, p.cache.z[i]? with
    | some xv, some zv =>
      if pointsInstanceAttrs.contains "noisemodel" then .ok (xv, zv)
      else .error .attributeError
    | some _, none => .error .indexError
    | none, _ => .error .indexError

/-! ### `PosteriorCollection.rejection_sample` (`swyft/inference/posteriors.py`)

Parameter tuples are identified with natural numbers; the randomness of
the weighted draws is abstracted into an oracle `kept k pt`, the number
of samples the rejection step keeps for tuple `pt` in loop iteration `k`.
The caller-passed `param_tuples` collection is threaded explicitly: the
Python code aliases it (`remaining_param_tuples = param_tuples`) and
mutates it in place with `remove`, so the final value of the thread is
exactly what the caller's collection holds after the call. -/

/-- oracle data for one `rejection_sample` call. -/
structure RejEnv where
  N : Nat
  maxiter : Nat
  kept : Nat → Nat → Nat

/-- one tuple's turn of the `for param_tuple in remaining_param_tuples`
body: append this iteration's kept samples to the collector and, when at
least `N` samples are accumulated (`len(concatenated) == N` after the
`[:N]` truncation), record the tuple in `out` (a dict keyed by tuple, so
recording is idempotent). -/
def collectStep (env : RejEnv) (k : Nat) :
    ((Nat → Nat) × List Nat) → Nat → ((Nat → Nat) × List Nat) :=
  fun acc pt =>
    let c := Function.update acc.1 pt (acc.1 pt + env.kept k pt)
    if env.N ≤ c pt ∧ pt ∉ acc.2 then (c, acc.2 ++ [pt]) else (c, acc.2)

/-- one iteration of the rejection loop: collect for every remaining
tuple, then `for param_tuple in out.keys(): if param_tuple in
remaining_param_tuples: remaining_param_tuples.remove(param_tuple)`. -/
def rejIter (env : RejEnv) (k : Nat) (collector : Nat → Nat)
    (out remaining : List Nat) : (Nat → Nat) × List Nat × List Nat :=
  let co := remaining.foldl (collectStep env k) (collector, out)
  (co.1, co.2, co.2.foldl List.erase remaining)

/-- the `while counter < maxiter` loop; `fuel` is the number of
iterations still allowed.  The loop returns as soon as no tuple remains;
exhausting `maxiter` warns and returns what was collected. -/
def rejLoop (env : RejEnv) :
    Nat → Nat → (Nat → Nat) → List Nat → List Nat → List Nat × List Nat
  | 0, _, _, out, remaining => (out, remaining)
  | fuel + 1, k, collector, out, remaining =>
    let r := rejIter env k collector out remaining
    if r.2.2.isEmpty then (r.2.1, r.2.2)
    else rejLoop env fuel (k + 1) r.1 r.2.1 r.2.2

/-- embedding of `PosteriorCollection.rejection_sample`: when
`param_tuples` is `None` a fresh set of the weights' keys is used (and no
caller collection exists to mutate, second component `none`); otherwise
the caller's collection is aliased and its post-call contents are
returned as the second component. -/
def rejection_sample (env : RejEnv) (weightKeys : List Nat)
    (paramTuples : Option (List Nat)) : List Nat × Option (List Nat) :=
  match paramTuples with
  | none => ((rejLoop env env.maxiter 0 (fun _ => 0) [] weightKeys).1, none)
  | some l =>
    let r := rejLoop env env.maxiter 0 (fun _ => 0) [] l
    (r.1, some r.2)

/-! ### Constrained region construction (`Prior.get_masked`,
`swyft/marginals/prior.py`)

`get_masked` computes, per parameter, the boolean mask
`lnL[(k,)].max() - lnL[(k,)] < -th` over the sampled points and keeps the
cube coordinates of the selected points (`v[mask]`) as the support points
of the new `BallMask`. -/

/-- `np.max` over the scores of the sampled points (nonempty in every
call, since `N` points were just sampled). -/
noncomputable def listMax : List ℝ → ℝ
  | [] => 0
  | [a] => a
  | a :: b :: t => max a (listMax (b :: t))

/-- the per-point mask condition of `get_masked`: point with score `s` is
selected exactly when `lnL.max() - s < -th`. -/
def maskIncludes (lnL : List ℝ) (th s : ℝ) : Prop := listMax lnL - s < -th

/-- the cube coordinates `v[mask]` that `get_masked` keeps for one
parameter: `v` are the sampled points' unit-cube positions, `lnL` their
scores. -/
noncomputable def getMaskedPoints (v lnL : List ℝ) (th : ℝ) : List ℝ :=
  (v.zip lnL).filterMap
    (fun p => if listMax lnL - p.2 < -th then some p.1 else none)

/-! ### Prior serialization (`swyft/marginals/prior.py`) -/

/-- the torch distribution a `Prior1d` wraps, determined by tag and
arguments. -/
inductive Dist1d where
  | normal (loc scale : ℝ)
  | uniform (x0 x1 : ℝ)
  | lognormal (loc scale : ℝ)

/-- a constructed `Prior1d`: stores `tag`, `args` and the distribution
built from them. -/
structure Prior1dObj where
  tag : String
  args : List ℝ
  prior : Dist1d

/-- embedding of `Prior1d.__init__(tag, *args)`: reads `args[0]`,
`args[1]` (an out-of-range read raises `IndexError`) and raises
`KeyError` for an unknown tag. -/
def mkPrior1d (tag : String) (args : List ℝ) : Except PyErr Prior1dObj :=
  if tag == "normal" then
    match args[0]?, args[1]? with
    | some loc, some scale => .ok ⟨tag, args, .normal loc scale⟩
    | _, _ => .error .indexError
  else if tag == "uniform" then
    match args[0]?, args[1]? with
    | some x0, some x1 => .ok ⟨tag, args, .uniform x0 x1⟩
    | _, _ => .error .indexError
  else if tag == "lognormal" then
    match args[0]?, args[1]? with
    | some loc, some scale => .ok ⟨tag, args, .lognormal loc scale⟩
    | _, _ => .error .indexError
  else .error .keyError

/-- `Prior1d.state_dict()`: the tag and the arguments. -/
def Prior1d.state_dict (p : Prior1dObj) : String × List ℝ := (p.tag, p.args)

/-- `Prior1d.from_state_dict`: rebuild from tag and arguments. -/
def Prior1d.from_state_dict (sd : String × List ℝ) : Except PyErr Prior1dObj :=
  mkPrior1d sd.1 sd.2

/-- Modelled from the spec: `ComboMask` (from `swyft/marginals/mask.py`,
which is not among the source files) is a mapping from parameter name to
a set of intervals in the unit cube; its `state_dict` persists the
per-parameter intervals and `from_state_dict` rebuilds the mask from
them with round-trip fidelity, and `volume` is the product of the
per-parameter total lengths. -/
structure ComboMaskObj where
  masks : List (String × List (ℝ × ℝ))

/-- Modelled from the spec: the persisted state of a `ComboMask`. -/
def ComboMask.state_dict (m : ComboMaskObj) : List (String × List (ℝ × ℝ)) :=
  m.masks

/-- Modelled from the spec: rebuild a `ComboMask` from its state. -/
def ComboMask.from_state_dict (sd : List (String × List (ℝ × ℝ))) :
    ComboMaskObj :=
  ⟨sd⟩

/-- Modelled from the spec: `volume()` is the product of each parameter
mask's total interval length. -/
def ComboMask.volume (m : ComboMaskObj) : ℝ :=
  (m.masks.map (fun kv => (kv.2.map (fun ab => ab.2 - ab.1)).sum)).prod

/-- a constructed `Prior`: the configuration, the optional mask, and the
per-parameter `Prior1d` objects `_setup_priors` builds from the
configuration. -/
structure PriorObj where
  prior_config : List (String × String × List ℝ)
  mask : Option ComboMaskObj
  priors : List (String × Prior1dObj)

/-- embedding of `Prior._setup_priors`: build `Prior1d(value[0],
*value[1:])` for every configuration entry. -/
def setupPriors :
    List (String × String × List ℝ) → Except PyErr (List (String × Prior1dObj))
  | [] => .ok []
  | (k, tag, args) :: rest =>
    match mkPrior1d tag args with
    | .error e => .error e
    | .ok p =>
      match setupPriors rest with
      | .error e => .error e
      | .ok ps => .ok ((k, p) :: ps)

/-- embedding of `Prior.__init__(prior_config, mask)`. -/
def mkPrior (config : List (String × String × List ℝ))
    (mask : Option ComboMaskObj) : Except PyErr PriorObj :=
  match setupPriors config with
  | .error e => .error e
  | .ok ps => .ok ⟨config, mask, ps⟩

/-- `Prior.volume()`: 1 without a mask, else the mask's volume. -/
def PriorObj.volume (p : PriorObj) : ℝ :=
  match p.mask with
  | none => 1
  | some m => ComboMask.volume m

/-- `Prior.state_dict()`: the configuration and the mask's state (or
`None`). -/
def Prior.state_dict (p : PriorObj) :
    List (String × String × List ℝ) × Option (List (String × List (ℝ × ℝ))) :=
  (p.prior_config, p.mask.map ComboMask.state_dict)

/-- `Prior.from_state_dict`: rebuild the mask (when present) with
`ComboMask.from_state_dict` and re-run the constructor. -/
def Prior.from_state_dict
    (sd : List (String × String × List ℝ) ×
      Option (List (String × List (ℝ × ℝ)))) : Except PyErr PriorObj :=
  mkPrior sd.1 (sd.2.map ComboMask.from_state_dict)

/-! ### The nested-round scheduler (`NestedRatios.run`,
`swyft/interface.py`)

A prior is represented by its volume (the only datum the scheduler's
arithmetic reads).  The external collaborators are oracles in `RunEnv`:
`constrVol R` is the volume of `marginals_R.gen_constr_prior(obs)` in
round `R`, and `newPending R` the number of `PENDING` records
`cache.grow` appends in round `R` (the store itself,
`swyft/cache.py`, is not among the source files; it is modelled from the
spec as a count of `FINISHED` and `PENDING` records, where `grow` only
appends `PENDING` records and `requires_sim` is true exactly when a
record is `PENDING`). -/

/-- Modelled from the spec: the simulation store as the scheduler sees
it — a count of simulated (`FINISHED`/`FAILED`) records and of `PENDING`
records awaiting simulation. -/
structure SwyftCache where
  finished : Nat
  pending : Nat

/-- Modelled from the spec: `requires_sim()` is true iff any record is
`PENDING`. -/
def SwyftCache.requiresSim (c : SwyftCache) : Bool := c.pending != 0

/-- Modelled from the spec: `grow` reuses existing admissible records and
only appends the shortfall as new `PENDING` records; `newPts` is that
shortfall. -/
def SwyftCache.grow (c : SwyftCache) (newPts : Nat) : SwyftCache :=
  ⟨c.finished, c.pending + newPts⟩

/-- Modelled from the spec: `simulate(model)` runs every `PENDING` record
and records an outcome for each. -/
def SwyftCache.simulate (c : SwyftCache) : SwyftCache :=
  ⟨c.finished + c.pending, 0⟩

/-- one entry of `NestedRatios._history`: the trained marginals (whose
`.prior` is the round's training prior — only its volume is kept here),
the new constrained prior (volume), and the round's sample count `N`. -/
structure HistEntry where
  marginals : Option ℝ
  constrPrior : Option ℝ
  N : ℝ

/-- the mutable state of a `NestedRatios` object that `run` touches. -/
structure NRState where
  converged : Bool
  history : List HistEntry
  cache : SwyftCache

/-- the oracle data of one `run` invocation. -/
structure RunEnv where
  D : Nat
  baseVol : ℝ
  modelBound : Bool
  newPending : Nat → Nat
  constrVol : Nat → ℝ

/-- the configuration arguments of `run`. -/
structure RunCfg where
  Ninit : ℝ
  densityFactor : ℝ
  volumeConvTh : ℝ
  maxRounds : Nat
  Nmax : ℝ
  keepHistory : Bool

/-- the sample-count update of `run` (lines 192-195 of `interface.py`):
`density_Rm1 = N_Rm1 / v_Rm1 ** (1/D)`, `density_R = density_factor *
density_Rm1`, `N_R = min(max(density_R * v_R ** (1/D), N_Rm1), Nmax)`. -/
noncomputable def nextN (densityFactor N_Rm1 v_Rm1 v_R : ℝ) (D : Nat)
    (Nmax : ℝ) : ℝ :=
  min (max (densityFactor * (N_Rm1 / v_Rm1 ^ ((1 : ℝ) / D)) *
    v_R ^ ((1 : ℝ) / D)) N_Rm1) Nmax

/-- the clamp of the spec's words: `clamp(x, lo, hi)`. -/
noncomputable def clampSpec (x lo hi : ℝ) : ℝ := min (max x lo) hi

/-- the first block of the round body: the round's prior volume and
sample target.  Round 0 uses the base prior and `Ninit`; later rounds
read `history[-1]['constr_prior']` and
`history[-1]['marginals'].prior` — `none` (a dropped artifact) makes the
round crash with an attribute error on `None`. -/
noncomputable def priorAndN (env : RunEnv) (cfg : RunCfg) (s : NRState) :
    Option (ℝ × ℝ) :=
  match s.history.getLast? with
  | none => some (env.baseVol, cfg.Ninit)
  | some e =>
    match e.constrPrior, e.marginals with
    | some v_R, some v_Rm1 =>
      some (v_R, nextN cfg.densityFactor e.N v_Rm1 v_R env.D cfg.Nmax)
    | _, _ => none

/-- the volume convergence test of `run` (line 232 of `interface.py`):
`np.log(prior_R.volume()) - np.log(constr_prior_R.volume()) <
volume_conv_th`. -/
def volumeConverged (vPrior vConstr th : ℝ) : Prop :=
  Real.log vPrior - Real.log vConstr < th

noncomputable instance (vPrior vConstr th : ℝ) :
    Decidable (volumeConverged vPrior vConstr th) :=
  inferInstanceAs (Decidable (Real.log vPrior - Real.log vConstr < th))

/-- blank a history entry's heavy artifacts, keeping `N` (the effect of
`self._history[-2]['marginals'] = None` and
`self._history[-2]['constr_prior'] = None`). -/
def blankEntry (e : HistEntry) : HistEntry := ⟨none, none, e.N⟩

/-- set the second-to-last history entry's artifacts to `None`. -/
def dropPenultimate : List HistEntry → List HistEntry
  | [] => []
  | [e] => [e]
  | [a, b] => [blankEntry a, b]
  | a :: b :: c :: t => a :: dropPenultimate (b :: c :: t)

/-- the three ways one round body can end. -/
inductive StepRes where
  | crash : StepRes
  | paused : NRState → StepRes
  | next : NRState → StepRes

/-- one iteration of the `while` loop of `run`: compute the round prior
and sample target, `_amortize` (grow the cache; if it then requires
simulation, simulate when a model is bound, else raise
`MissingModelError`, which `run` catches and returns on), build the
constrained prior, append the history entry, drop the previous round's
artifacts unless `keep_history`, and run the volume convergence test. -/
noncomputable def stepRound (env : RunEnv) (cfg : RunCfg) (s : NRState) :
    StepRes :=
  match priorAndN env cfg s with
  | none => .crash
  | some (v_R, N_R) =>
    let R := s.history.length
    let c1 := s.cache.grow (env.newPending R)
    if c1.requiresSim && !env.modelBound then
      .paused ⟨s.converged, s.history, c1⟩
    else
      let c2 := if c1.requiresSim then c1.simulate else c1
      let vC := env.constrVol R
      let hist1 := s.history ++ [⟨some v_R, some vC, N_R⟩]
      let hist2 :=
        if !cfg.keepHistory && decide (1 < hist1.length) then
          dropPenultimate hist1
        else hist1
      let conv : Bool :=
        if volumeConverged v_R vC cfg.volumeConvTh then true else s.converged
      .next ⟨conv, hist2, c2⟩

/-- how one `run` invocation ends: normal return (converged or
`max_rounds` reached), the `MissingModelError` early return, or an
uncaught exception. -/
inductive RunOutcome where
  | finished : RunOutcome
  | missingModel : RunOutcome
  | crashed : RunOutcome
deriving DecidableEq

/-- the `while (not self.converged()) and (r < max_rounds)` loop; `fuel`
counts the rounds this invocation may still run. -/
noncomputable def runLoop (env : RunEnv) (cfg : RunCfg) :
    Nat → NRState → RunOutcome × NRState
  | 0, s => (.finished, s)
  | fuel + 1, s =>
    if s.converged then (.finished, s)
    else
      match stepRound env cfg s with
      | .crash => (.crashed, s)
      | .paused s1 => (.missingModel, s1)
      | .next s1 => runLoop env cfg fuel s1

/-- embedding of `NestedRatios.run`: the loop with `max_rounds` fuel. -/
noncomputable def NestedRatios.run (env : RunEnv) (cfg : RunCfg)
    (s : NRState) : RunOutcome × NRState :=
  runLoop env cfg cfg.maxRounds s

/-- a history in which every entry except possibly the most recent one has
had its heavy artifacts dropped. -/
def heavyOnlyLast (h : List HistEntry) : Prop :=
  ∀ e ∈ h.dropLast, e.marginals = none ∧ e.constrPrior = none

/-- the history entry one completed round appends: the round's training
prior volume `v`, the new constrained prior's volume, and the sample
count `N`. -/
noncomputable def roundEntry (env : RunEnv) (s : NRState) (v N : ℝ) :
    HistEntry :=
  ⟨some v, some (env.constrVol s.history.length), N⟩

/-- the state a completed round body produces (spelled out; `stepRound`
reduces to it when `_amortize` does not raise). -/
noncomputable def nextState (env : RunEnv) (cfg : RunCfg) (s : NRState)
    (v N : ℝ) : NRState :=
  ⟨(if volumeConverged v (env.constrVol s.history.length) cfg.volumeConvTh
      then true else s.converged),
    (if !cfg.keepHistory
        && decide (1 < (s.history ++ [roundEntry env s v N]).length)
      then dropPenultimate (s.history ++ [roundEntry env s v N])
      else s.history ++ [roundEntry env s v N]),
    (if (s.cache.grow (env.newPending s.history.length)).requiresSim
      then (s.cache.grow (env.newPending s.history.length)).simulate
      else s.cache.grow (env.newPending s.history.length))⟩

/-- the convergence-scenario oracle: one parameter, base volume 1, a bound
model, a cache that never needs growth, constrained volumes 0.4 then
0.36. -/
noncomputable def envShrink : RunEnv :=
  ⟨1, 1, true, fun _ => 0, fun R => if R = 0 then 0.4 else 0.36⟩

/-- the convergence-scenario configuration: `Ninit = 5`,
`density_factor = 2`, `volume_conv_th = 0.1`, `max_rounds = 2`,
`Nmax = 100`, `keep_history = False`. -/
noncomputable def cfgShrink : RunCfg := ⟨5, 2, 0.1, 2, 100, false⟩

/-- the convergence scenario's initial state. -/
noncomputable def sShrink0 : NRState := ⟨false, [], ⟨0, 0⟩⟩

/-- the history entry the convergence scenario's first round appends. -/
noncomputable def eShrink1 : HistEntry := ⟨some 1, some 0.4, 5⟩

/-- the convergence scenario's state after one round. -/
noncomputable def sShrinkA : NRState := ⟨false, [eShrink1], ⟨0, 0⟩⟩

/-- the convergence scenario's state after two rounds: the first entry's
artifacts have been dropped. -/
noncomputable def sShrinkB : NRState :=
  ⟨false, [⟨none, none, 5⟩, ⟨some 0.4, some 0.36, 5⟩], ⟨0, 0⟩⟩

/-- a missing-model scenario: no model bound and a cache whose growth
leaves one record pending. -/
noncomputable def env4 : RunEnv := ⟨1, 1, false, fun _ => 1, fun _ => 0.5⟩

/-- the missing-model scenario's configuration. -/
noncomputable def cfg4 : RunCfg := ⟨5, 2, 0.1, 3, 100, false⟩

/-- the missing-model scenario's initial state: three finished records,
none pending. -/
noncomputable def s4 : NRState := ⟨false, [], ⟨3, 0⟩⟩

/-- a one-parameter prior configuration for the serialization round
trip. -/
noncomputable def configW : List (String × String × List ℝ) :=
  [("a", "uniform", [0, 1])]

/-- a mask for the serialization round trip. -/
noncomputable def maskW : Option ComboMaskObj := some ⟨[("a", [(0.2, 0.7)])]⟩

/-- the prior the round-trip scenario constructs. -/
noncomputable def priorW : PriorObj :=
  ⟨configW, maskW, [("a", ⟨"uniform", [0, 1], Dist1d.uniform 0 1⟩)]⟩

/-! ## Theorems -/

/-- helper: `noisemodel` is not among the attributes ever assigned on a
`Points` object. -/
theorem noisemodel_not_assigned :
    pointsInstanceAttrs.contains "noisemodel" = false := by
  decide

/-- C1: the partial-failure contract is broken by the code.  Classifying
a result as `FINISHED` (an IntEnum of value 2) is truthy, so the chunk
records `has_failed[i] = True` for every point, successes included; and
a model invocation that raises propagates out of the loop, aborting the
whole chunk instead of marking one point `FAILED`. -/
theorem c1_run_model_chunk_marks_all_failed :
    hasFailed (ModelOut.dict [("x", SimValue.num true)]) true
        = Except.ok SimulationStatus.FINISHED
    ∧ runModelChunk [0, 1]
        (fun _ => Except.ok (ModelOut.dict [("x", SimValue.num true)])) true
        = Except.ok ([some [("x", SimValue.num true)],
            some [("x", SimValue.num true)]], [true, true])
    ∧ runModelChunk [0, 1]
        (fun zi => if zi == 0 then Except.error PyErr.valueError
          else Except.ok (ModelOut.dict [("x", SimValue.num true)])) true
        = Except.error PyErr.valueError :=
  ⟨rfl, rfl, rfl⟩

/-- C6 counterexample: a non-dictionary model result is not classified
`FAILED`; the `assert isinstance(x, dict)` raises an `AssertionError`
that aborts the chunk. -/
theorem c6_nondict_asserts_counterexample :
    hasFailed ModelOut.nonDict true = Except.error PyErr.assertionError
    ∧ hasFailed ModelOut.nonDict true ≠ Except.ok SimulationStatus.FAILED :=
  ⟨rfl, fun h => Except.noConfusion h⟩

/-- C6 (amended): `_has_failed` classifies a dictionary result `FAILED`
exactly when it contains a `None` value or, with `fail_on_non_finite`
set, a non-finite value, and `FINISHED` otherwise; a non-dictionary
result raises an `AssertionError` (aborting the chunk) instead of being
classified `FAILED`. -/
theorem c6_classification_amended :
    (∀ xs f, hasFailed (ModelOut.dict xs) f = Except.ok SimulationStatus.FAILED
        ↔ (containsMissing xs = true ∨ (f = true ∧ allFinite xs = false)))
    ∧ (∀ xs f,
        hasFailed (ModelOut.dict xs) f = Except.ok SimulationStatus.FINISHED
        ↔ (containsMissing xs = false ∧ (f = true → allFinite xs = true)))
    ∧ (∀ f, hasFailed ModelOut.nonDict f = Except.error PyErr.assertionError) := by
  refine ⟨?_, ?_, fun f => rfl⟩
  · intro xs f
    cases hm : containsMissing xs <;> cases f <;> cases ha : allFinite xs <;>
      simp [hasFailed, hm, ha]
  · intro xs f
    cases hm : containsMissing xs <;> cases f <;> cases ha : allFinite xs <;>
      simp [hasFailed, hm, ha]

/-- C9: a `Points` constructor call raises `RuntimeError` while the cache
requires simulation and otherwise stores the noise function in
`noisehook`; `__getitem__` reaches the read of the never-assigned
attribute `noisemodel` on every in-range index and raises
`AttributeError` there, and no call on any index ever returns an item. -/
theorem c9_points_getitem_raises :
    (∀ (X Z I : Type) (cache : PCache X Z) (i : I) (nh : Option (X → Z → X)),
        cache.requiresSim = true →
        mkPoints cache i nh = Except.error PyErr.runtimeError)
    ∧ (∀ (X Z I : Type) (cache : PCache X Z) (i : I) nh p,
        mkPoints cache i nh = Except.ok p →
        p.noisehook = nh ∧ p.cache = cache)
    ∧ (∀ (X Z I : Type) (p : PointsObj X Z I) (idx k : Nat),
        (Points.indices p)[idx]? = some k →
        k < p.cache.x.length → k < p.cache.z.length →
        Points.getitem p idx = Except.error PyErr.attributeError)
    ∧ (∀ (X Z I : Type) (p : PointsObj X Z I) (idx : Nat) (r : X × Z),
        Points.getitem p idx ≠ Except.ok r) := by
  refine ⟨?_, ?_, ?_, ?_⟩
  · intro X Z I cache i nh h
    simp [mkPoints, h]
  · intro X Z I cache i nh p h
    cases hr : cache.requiresSim <;> simp [mkPoints, hr] at h
    exact ⟨congrArg PointsObj.noisehook h.symm, congrArg PointsObj.cache h.symm⟩
  · intro X Z I p idx k hidx hx hz
    simp only [Points.getitem, hidx, List.getElem?_eq_getElem hx,
      List.getElem?_eq_getElem hz]
    simp [pointsInstanceAttrs]
  · intro X Z I p idx r h
    unfold Points.getitem at h
    split at h
    · cases h
    · split at h
      · simp [pointsInstanceAttrs] at h
      · cases h
      · cases h

/-- helper: one turn of the collection body either leaves `out` unchanged
or appends the current tuple. -/
theorem collectStep_out (env : RejEnv) (k : Nat) (acc : (Nat → Nat) × List Nat)
    (pt : Nat) :
    (collectStep env k acc pt).2 = acc.2
    ∨ (collectStep env k acc pt).2 = acc.2 ++ [pt] := by
  unfold collectStep
  dsimp only
  split
  · exact Or.inr rfl
  · exact Or.inl rfl

/-- helper: a whole collection pass only appends to `out`. -/
theorem collect_foldl_out (env : RejEnv) (k : Nat) :
    ∀ (l : List Nat) (c : Nat → Nat) (out : List Nat),
      ∃ ex, (l.foldl (collectStep env k) (c, out)).2 = out ++ ex := by
  intro l
  induction l with
  | nil => exact fun c out => ⟨[], by simp⟩
  | cons pt rest ih =>
    intro c out
    rw [List.foldl_cons]
    rcases hr : collectStep env k (c, out) pt with ⟨c1, out1⟩
    have hout1 : out1 = out ∨ out1 = out ++ [pt] := by
      have := collectStep_out env k (c, out) pt
      rw [hr] at this
      exact this
    obtain ⟨ex1, hex1⟩ := ih c1 out1
    rcases hout1 with h | h
    · exact ⟨ex1, by rw [hex1, h]⟩
    · exact ⟨[pt] ++ ex1, by rw [hex1, h, List.append_assoc]⟩

/-- helper: erasing every element of `ks` from a duplicate-free list is a
filter. -/
theorem foldl_erase_filter :
    ∀ (ks r : List Nat), r.Nodup →
      ks.foldl List.erase r = r.filter (fun a => decide (a ∉ ks)) := by
  intro ks
  induction ks with
  | nil => intro r _; simp
  | cons k ks ih =>
    intro r hr
    rw [List.foldl_cons, ih (r.erase k) (hr.erase k),
      List.Nodup.erase_eq_filter hr k, List.filter_filter _ r]
    apply List.filter_congr
    intro a _
    by_cases hk : a = k
    · subst hk; simp
    · by_cases hks : a ∈ ks <;> simp [hk, hks]

/-- helper: filtering by exclusion from a longer `out` list absorbs
filtering by exclusion from its prefix. -/
theorem filter_notMem_absorb (l out ex : List Nat) :
    (l.filter (fun a => decide (a ∉ out))).filter
        (fun a => decide (a ∉ out ++ ex))
      = l.filter (fun a => decide (a ∉ out ++ ex)) := by
  rw [List.filter_filter _ l]
  apply List.filter_congr
  intro a _
  by_cases h1 : a ∈ out
  · simp [h1, List.mem_append]
  · simp [h1]

/-- helper: the unfolded shape of one rejection-loop iteration. -/
theorem rejIter_eq (env : RejEnv) (k : Nat) (c : Nat → Nat)
    (out rem : List Nat) :
    rejIter env k c out rem
      = ((rem.foldl (collectStep env k) (c, out)).1,
         (rem.foldl (collectStep env k) (c, out)).2,
         ((rem.foldl (collectStep env k) (c, out)).2).foldl List.erase rem) :=
  rfl

/-- helper: the rejection loop's final remaining collection is exactly the
requested tuples not recorded in the final `out`, which extends the
initial `out` on the right. -/
theorem rejLoop_invariant (env : RejEnv) :
    ∀ (fuel k : Nat) (c : Nat → Nat) (out l rem : List Nat),
      l.Nodup →
      rem = l.filter (fun a => decide (a ∉ out)) →
      ∃ outF, rejLoop env fuel k c out rem
          = (outF, l.filter (fun a => decide (a ∉ outF)))
        ∧ ∃ ex, outF = out ++ ex := by
  intro fuel
  induction fuel with
  | zero =>
    intro k c out l rem hl hrem
    exact ⟨out, by rw [rejLoop, hrem], ⟨[], (List.append_nil out).symm⟩⟩
  | succ fuel ih =>
    intro k c out l rem hl hrem
    rw [rejLoop]
    simp only [rejIter_eq]
    obtain ⟨ex0, hex0⟩ := collect_foldl_out env k rem c out
    have hremNodup : rem.Nodup := by
      rw [hrem]; exact hl.filter _
    set c1 := (List.foldl (collectStep env k) (c, out) rem).1 with hc1
    set out1 := (List.foldl (collectStep env k) (c, out) rem).2 with hout1
    have hrem1 : List.foldl List.erase rem out1
        = l.filter (fun a => decide (a ∉ out1)) := by
      rw [foldl_erase_filter out1 rem hremNodup, hrem, hex0,
        filter_notMem_absorb]
    rw [hrem1]
    split
    · exact ⟨out1, rfl, ⟨ex0, hex0⟩⟩
    · obtain ⟨outF, hloop, ex1, hex1⟩ :=
        ih (k + 1) c1 out1 l (l.filter (fun a => decide (a ∉ out1))) hl rfl
      exact ⟨outF, hloop, ⟨ex0 ++ ex1, by
        rw [hex1, hex0, List.append_assoc]⟩⟩

/-- C10: `rejection_sample` aliases the caller's `param_tuples` collection
(`remaining_param_tuples = param_tuples`) and removes each tuple from it
once that tuple's `N` samples are collected: after the call the
collection holds exactly the tuples not recorded in the returned `out`
(in particular it is emptied when every requested tuple was collected),
while passing `None` leaves no caller collection to mutate. -/
theorem c10_rejection_sample_aliasing :
    (∀ (env : RejEnv) (wk l out rem : List Nat), l.Nodup →
        rejection_sample env wk (some l) = (out, some rem) →
        rem = l.filter (fun a => decide (a ∉ out))
        ∧ ((∀ pt ∈ l, pt ∈ out) → rem = []))
    ∧ (∀ (env : RejEnv) (wk : List Nat),
        (rejection_sample env wk none).2 = none) := by
  constructor
  · intro env wk l out rem hl h
    obtain ⟨outF, hloop, _⟩ :=
      rejLoop_invariant env env.maxiter 0 (fun _ => 0) [] l l hl (by simp)
    unfold rejection_sample at h
    dsimp only at h
    rw [hloop] at h
    dsimp only at h
    injection h with h1 h2
    injection h2 with h2
    subst h1
    refine ⟨h2.symm, fun hall => ?_⟩
    rw [← h2]
    apply List.filter_eq_nil_iff.2
    intro a ha
    simp [hall a ha]
  · intro env wk
    rfl

/-- helper: a numeric bound on the exponential at one tenth. -/
theorem exp_tenth_lt : Real.exp (1 / 10) < 10 / 9 := by
  have h1 : Real.exp (1 / 10) ^ (10 : ℕ) = Real.exp 1 := by
    rw [← Real.exp_nat_mul]; norm_num
  by_contra hcon
  push_neg at hcon
  have h2 : ((10 : ℝ) / 9) ^ (10 : ℕ) ≤ Real.exp (1 / 10) ^ (10 : ℕ) :=
    pow_le_pow_left₀ (by norm_num) hcon 10
  rw [h1] at h2
  have h3 := Real.exp_one_lt_d9
  have h4 : ((10 : ℝ) / 9) ^ (10 : ℕ) < 2.7182818286 := lt_of_le_of_lt h2 h3
  norm_num at h4

/-- helper: volumes 0.4 then 0.36 do not pass the convergence test at
threshold 0.1 (the log difference is about 0.105). -/
theorem not_volumeConverged_04_036 : ¬ volumeConverged 0.4 0.36 0.1 := by
  unfold volumeConverged
  push_neg
  have h1 : Real.log 0.4 - Real.log 0.36 = Real.log (10 / 9) := by
    rw [← Real.log_div (by norm_num) (by norm_num)]
    norm_num
  rw [h1, show (0.1 : ℝ) = 1 / 10 by norm_num,
    Real.le_log_iff_exp_le (by norm_num : (0:ℝ) < 10 / 9)]
  exact exp_tenth_lt.le

/-- helper: volumes 0.36 then 0.33 pass the convergence test at
threshold 0.1 (the log difference is about 0.087). -/
theorem volumeConverged_036_033 : volumeConverged 0.36 0.33 0.1 := by
  unfold volumeConverged
  have h1 : Real.log 0.36 - Real.log 0.33 = Real.log (12 / 11) := by
    rw [← Real.log_div (by norm_num) (by norm_num)]
    norm_num
  rw [h1, show (0.1 : ℝ) = 1 / 10 by norm_num,
    Real.log_lt_iff_lt_exp (by norm_num : (0:ℝ) < 12 / 11)]
  have h2 := Real.add_one_le_exp (1 / 10 : ℝ)
  linarith

/-- helper: volumes 1 then 0.4 do not pass the convergence test at
threshold 0.1. -/
theorem not_volumeConverged_1_04 : ¬ volumeConverged 1 0.4 0.1 := by
  unfold volumeConverged
  push_neg
  have h1 : Real.log 1 - Real.log 0.4 = Real.log (5 / 2) := by
    rw [show (0.4 : ℝ) = 2 / 5 by norm_num, Real.log_one,
      show (5 : ℝ) / 2 = (2 / 5)⁻¹ by norm_num, Real.log_inv]
    ring
  rw [h1, show (0.1 : ℝ) = 1 / 10 by norm_num,
    Real.le_log_iff_exp_le (by norm_num : (0:ℝ) < 5 / 2)]
  have := exp_tenth_lt
  linarith

/-- helper: the score maximum of the two-point grid of the C7 boundary
example. -/
theorem listMax_pair : listMax [0, -1] = 0 := by
  show max (0:ℝ) (-1) = 0
  rw [max_eq_left (by norm_num : (-1:ℝ) ≤ 0)]

/-- C7 counterexample: with scores `[0, -1]` and cutoff `th = -1`, the
point scoring `-1` satisfies the claimed rule `score - max(score) >= th`
yet `get_masked` excludes it: the code keeps only points with
`max(score) - score < -th`, a strict inequality, so the cube position
`0.25` of the boundary point is dropped. -/
theorem c7_boundary_counterexample :
    ((-1 : ℝ) - listMax [0, -1] ≥ -1)
    ∧ ¬ maskIncludes [0, -1] (-1) (-1)
    ∧ getMaskedPoints [0.5, 0.25] [0, -1] (-1) = [0.5] := by
  refine ⟨by rw [listMax_pair]; norm_num, ?_, ?_⟩
  · unfold maskIncludes
    rw [listMax_pair]
    norm_num
  · unfold getMaskedPoints
    show List.filterMap _ [((0.5 : ℝ), (0 : ℝ)), (0.25, -1)] = [0.5]
    norm_num [List.filterMap_cons, listMax_pair]

/-- C7 (amended): `get_masked` selects a sampled point exactly when its
score satisfies the strict inequality `score - max(score) > th`; points
at or below the cutoff are excluded. -/
theorem c7_mask_threshold_amended :
    (∀ lnL th s, maskIncludes lnL th s ↔ s - listMax lnL > th)
    ∧ (∀ v lnL th, getMaskedPoints v lnL th
        = (v.zip lnL).filterMap
            (fun p => if p.2 - listMax lnL > th then some p.1 else none)) := by
  constructor
  · intro lnL th s
    unfold maskIncludes
    constructor <;> intro h <;> linarith
  · intro v lnL th
    unfold getMaskedPoints
    apply List.filterMap_congr
    intro p _
    apply if_congr _ rfl rfl
    constructor <;> intro h <;> linarith

/-- helper: explicit form of a round body that completes (`_amortize`
does not raise). -/
theorem stepRound_next_eq (env : RunEnv) (cfg : RunCfg) (s : NRState)
    (v N : ℝ) (hPN : priorAndN env cfg s = some (v, N))
    (hsim : ((s.cache.grow (env.newPending s.history.length)).requiresSim
        && !env.modelBound) = false) :
    stepRound env cfg s = StepRes.next (nextState env cfg s v N) := by
  unfold stepRound nextState roundEntry
  rw [hPN]
  dsimp only
  rw [if_neg (by simp [hsim])]

/-- helper: explicit form of a round body that pauses on
`MissingModelError`. -/
theorem stepRound_paused_eq (env : RunEnv) (cfg : RunCfg) (s : NRState)
    (v N : ℝ) (hPN : priorAndN env cfg s = some (v, N))
    (hsim : ((s.cache.grow (env.newPending s.history.length)).requiresSim
        && !env.modelBound) = true) :
    stepRound env cfg s = StepRes.paused
      ⟨s.converged, s.history,
        s.cache.grow (env.newPending s.history.length)⟩ := by
  unfold stepRound
  rw [hPN]
  dsimp only
  rw [if_pos hsim]

/-- helper: inversion of a completed round body. -/
theorem stepRound_next_inv (env : RunEnv) (cfg : RunCfg) (s : NRState)
    (s1 : NRState) (hstep : stepRound env cfg s = StepRes.next s1) :
    ∃ v N, priorAndN env cfg s = some (v, N)
      ∧ s1 = nextState env cfg s v N := by
  rcases hPN : priorAndN env cfg s with _ | ⟨v, N⟩
  · unfold stepRound at hstep
    rw [hPN] at hstep
    cases hstep
  · rcases hb : ((s.cache.grow (env.newPending s.history.length)).requiresSim
        && !env.modelBound) with _ | _
    · rw [stepRound_next_eq env cfg s v N hPN hb] at hstep
      exact ⟨v, N, rfl, (StepRes.next.inj hstep).symm⟩
    · rw [stepRound_paused_eq env cfg s v N hPN hb] at hstep
      cases hstep

/-- helper: blanking the penultimate entry commutes with cons when at
least three entries remain. -/
theorem dropPenultimate_cons₂ (a b : HistEntry) (l : List HistEntry)
    (h : l ≠ []) :
    dropPenultimate (a :: b :: l) = a :: dropPenultimate (b :: l) := by
  cases l with
  | nil => exact absurd rfl h
  | cons c t => rfl

/-- helper: the effect of the artifact drop on a freshly appended
history. -/
theorem dropPenultimate_append :
    ∀ (l : List HistEntry) (e0 e : HistEntry),
      dropPenultimate ((e0 :: l) ++ [e])
        = (e0 :: l).dropLast
          ++ [blankEntry ((e0 :: l).getLast (by simp)), e] := by
  intro l
  induction l with
  | nil => intro e0 e; rfl
  | cons b t ih =>
    intro e0 e
    rw [show (e0 :: b :: t) ++ [e] = e0 :: ((b :: t) ++ [e]) from rfl]
    rw [show (b :: t) ++ [e] = b :: (t ++ [e]) from rfl]
    rw [dropPenultimate_cons₂ e0 b (t ++ [e]) (by simp)]
    rw [show (b :: (t ++ [e])) = (b :: t) ++ [e] from rfl]
    rw [ih b e]
    simp [List.getLast_cons]

/-- helper: the artifact drop retains every entry's sample count. -/
theorem dropPenultimate_map_N (l : List HistEntry) :
    (dropPenultimate l).map HistEntry.N = l.map HistEntry.N := by
  rcases List.eq_nil_or_concat l with rfl | ⟨init, e, rfl⟩
  · rfl
  · cases init with
    | nil => rfl
    | cons e0 t =>
      rw [List.concat_eq_append]
      rw [dropPenultimate_append t e0 e]
      have hsplit : (e0 :: t).dropLast ++ [(e0 :: t).getLast (by simp)]
          = e0 :: t := List.dropLast_append_getLast (by simp)
      have hmap := congrArg (List.map HistEntry.N) hsplit
      rw [List.map_append] at hmap
      simp only [List.map_cons, List.map_nil, List.map_append,
        blankEntry] at hmap ⊢
      rw [← hmap, List.append_assoc]
      rfl

/-- helper: the artifact drop never touches the most recent entry. -/
theorem dropPenultimate_getLastOpt (l : List HistEntry) :
    (dropPenultimate l).getLast? = l.getLast? := by
  rcases List.eq_nil_or_concat l with rfl | ⟨init, e, rfl⟩
  · rfl
  · cases init with
    | nil => rfl
    | cons e0 t =>
      rw [List.concat_eq_append]
      rw [dropPenultimate_append t e0 e]
      rw [show (e0 :: t).dropLast
            ++ [blankEntry ((e0 :: t).getLast (by simp)), e]
          = ((e0 :: t).dropLast
            ++ [blankEntry ((e0 :: t).getLast (by simp))]) ++ [e] from by
        rw [List.append_assoc]; rfl]
      rw [List.getLast?_concat, List.getLast?_concat]

/-- helper: after appending a round and dropping the penultimate
artifacts, only the last entry can retain artifacts. -/
theorem heavyOnlyLast_drop (l : List HistEntry) (e : HistEntry)
    (h : heavyOnlyLast l) :
    heavyOnlyLast (dropPenultimate (l ++ [e])) := by
  cases l with
  | nil =>
    intro x hx
    simp [dropPenultimate] at hx
  | cons e0 t =>
    rw [dropPenultimate_append t e0 e]
    intro x hx
    rw [show (e0 :: t).dropLast
          ++ [blankEntry ((e0 :: t).getLast (by simp)), e]
        = ((e0 :: t).dropLast
          ++ [blankEntry ((e0 :: t).getLast (by simp))]) ++ [e] from by
      rw [List.append_assoc]; rfl] at hx
    rw [List.dropLast_concat] at hx
    rcases List.mem_append.1 hx with hx | hx
    · exact h x hx
    · rw [List.mem_singleton.1 hx]
      exact ⟨rfl, rfl⟩

/-- C2: a completed round marks the run converged exactly when
`log(prior volume) - log(constrained volume) < volume_conv_th`; the loop
stops untouched once the round budget `max_rounds` is exhausted (a
non-terminal pause with `converged()` still false) and stops immediately
once converged; at threshold 0.1, volumes 0.4 then 0.36 do not converge
while 0.36 then 0.33 do. -/
theorem c2_convergence_test :
    (∀ (env : RunEnv) (cfg : RunCfg) (s : NRState) (v N : ℝ) (s1 : NRState),
        s.converged = false →
        priorAndN env cfg s = some (v, N) →
        stepRound env cfg s = StepRes.next s1 →
        (s1.converged = true ↔
          volumeConverged v (env.constrVol s.history.length) cfg.volumeConvTh))
    ∧ (∀ (env : RunEnv) (cfg : RunCfg) (s : NRState),
        runLoop env cfg 0 s = (RunOutcome.finished, s))
    ∧ (∀ (env : RunEnv) (cfg : RunCfg) (fuel : Nat) (s : NRState),
        s.converged = true →
        runLoop env cfg fuel s = (RunOutcome.finished, s))
    ∧ ¬ volumeConverged 0.4 0.36 0.1
    ∧ volumeConverged 0.36 0.33 0.1 := by
  refine ⟨?_, fun env cfg s => rfl, ?_,
    not_volumeConverged_04_036, volumeConverged_036_033⟩
  · intro env cfg s v N s1 hcv hPN hstep
    obtain ⟨v2, N2, hPN2, hs1⟩ := stepRound_next_inv env cfg s s1 hstep
    rw [hPN] at hPN2
    have h := Option.some.inj hPN2
    have hv : v = v2 := congrArg Prod.fst h
    subst hv
    subst hs1
    unfold nextState
    dsimp only
    rw [hcv]
    by_cases hvc : volumeConverged v (env.constrVol s.history.length)
        cfg.volumeConvTh
    · simp [hvc]
    · simp [hvc]
  · intro env cfg fuel s h
    cases fuel with
    | zero => rfl
    | succ n =>
      rw [runLoop, if_pos h]

/-- C3: the per-round sample target of `run` is
`min(max(density_factor * N_prev / v_prev^(1/D) * v^(1/D), N_prev), Nmax)`,
which equals the spec's clamp; whenever `N_prev ≤ Nmax` the target is at
least `N_prev` and never exceeds `Nmax`; every completed round appends a
history entry carrying exactly that target (the first round carries
`Ninit`). -/
theorem c3_sample_schedule :
    (∀ (df N1 v1 v2 : ℝ) (D : Nat) (Nm : ℝ),
        nextN df N1 v1 v2 D Nm
          = clampSpec (df * N1 / v1 ^ ((1 : ℝ) / D) * v2 ^ ((1 : ℝ) / D))
              N1 Nm)
    ∧ (∀ (df N1 v1 v2 : ℝ) (D : Nat) (Nm : ℝ), N1 ≤ Nm →
        N1 ≤ nextN df N1 v1 v2 D Nm)
    ∧ (∀ (df N1 v1 v2 : ℝ) (D : Nat) (Nm : ℝ), nextN df N1 v1 v2 D Nm ≤ Nm)
    ∧ (∀ (env : RunEnv) (cfg : RunCfg) (s s1 : NRState) (e : HistEntry)
        (v_R v_Rm1 : ℝ),
        stepRound env cfg s = StepRes.next s1 →
        s.history.getLast? = some e →
        e.constrPrior = some v_R → e.marginals = some v_Rm1 →
        (s1.history.getLast?).map HistEntry.N
          = some (nextN cfg.densityFactor e.N v_Rm1 v_R env.D cfg.Nmax))
    ∧ (∀ (env : RunEnv) (cfg : RunCfg) (s s1 : NRState),
        stepRound env cfg s = StepRes.next s1 →
        s.history = [] →
        (s1.history.getLast?).map HistEntry.N = some cfg.Ninit) := by
  refine ⟨?_, ?_, ?_, ?_, ?_⟩
  · intro df N1 v1 v2 D Nm
    unfold nextN clampSpec
    rw [show df * (N1 / v1 ^ ((1 : ℝ) / D)) * v2 ^ ((1 : ℝ) / D)
        = df * N1 / v1 ^ ((1 : ℝ) / D) * v2 ^ ((1 : ℝ) / D) from by ring]
  · intro df N1 v1 v2 D Nm h
    exact le_min (le_max_right _ _) h
  · intro df N1 v1 v2 D Nm
    exact min_le_right _ _
  · intro env cfg s s1 e v_R v_Rm1 hstep hlast hconstr hmarg
    obtain ⟨v, N, hPN, hs1⟩ := stepRound_next_inv env cfg s s1 hstep
    have hPN2 : priorAndN env cfg s
        = some (v_R, nextN cfg.densityFactor e.N v_Rm1 v_R env.D cfg.Nmax) := by
      unfold priorAndN
      rw [hlast]
      dsimp only
      rw [hconstr, hmarg]
    rw [hPN2] at hPN
    have h := Option.some.inj hPN
    have hN : nextN cfg.densityFactor e.N v_Rm1 v_R env.D cfg.Nmax = N :=
      congrArg Prod.snd h
    subst hs1
    unfold nextState
    dsimp only
    rw [hN]
    split
    · rw [dropPenultimate_getLastOpt, List.getLast?_concat]
      rfl
    · rw [List.getLast?_concat]
      rfl
  · intro env cfg s s1 hstep hhist
    obtain ⟨v, N, hPN, hs1⟩ := stepRound_next_inv env cfg s s1 hstep
    have hPN2 : priorAndN env cfg s = some (env.baseVol, cfg.Ninit) := by
      unfold priorAndN
      rw [hhist]
      rfl
    rw [hPN2] at hPN
    have h := Option.some.inj hPN
    have hN : cfg.Ninit = N := congrArg Prod.snd h
    subst hs1
    unfold nextState
    dsimp only
    rw [hN]
    split
    · rw [dropPenultimate_getLastOpt, List.getLast?_concat]
      rfl
    · rw [List.getLast?_concat]
      rfl

/-- C4: a round that needs simulation while no model is bound ends the
`run` invocation with the `MissingModelError` early return: `converged()`
stays false, no history entry is appended, and the cache keeps both its
already-simulated records and the freshly grown pending records, so the
same round can be resumed once a model is supplied. -/
theorem c4_missing_model_pause :
    ∀ (env : RunEnv) (cfg : RunCfg) (s : NRState) (v N : ℝ) (fuel : Nat),
      env.modelBound = false →
      s.converged = false →
      priorAndN env cfg s = some (v, N) →
      (s.cache.grow (env.newPending s.history.length)).requiresSim = true →
      runLoop env cfg (fuel + 1) s
        = (RunOutcome.missingModel,
            ⟨false, s.history, s.cache.grow (env.newPending s.history.length)⟩)
      ∧ (s.cache.grow (env.newPending s.history.length)).finished
          = s.cache.finished := by
  intro env cfg s v N fuel hmb hcv hPN hrs
  refine ⟨?_, rfl⟩
  rw [runLoop, if_neg (by simp [hcv]),
    stepRound_paused_eq env cfg s v N hPN (by rw [hrs, hmb]; rfl), hcv]

/-- C5 (amended): with `keep_history` false, each completed round blanks
the artifacts of the second-most-recent history entry right after
appending, so only the single most recent entry retains its marginals and
constrained prior; every entry's sample count `N` is retained (the
appended entry carries the round's `N`). -/
theorem c5_history_keeps_only_last :
    ∀ (env : RunEnv) (cfg : RunCfg) (s s1 : NRState),
      cfg.keepHistory = false →
      stepRound env cfg s = StepRes.next s1 →
      heavyOnlyLast s.history →
      heavyOnlyLast s1.history
      ∧ (∃ n, s1.history.map HistEntry.N = s.history.map HistEntry.N ++ [n])
      ∧ (∃ e, s1.history.getLast? = some e
          ∧ e.marginals.isSome = true ∧ e.constrPrior.isSome = true) := by
  intro env cfg s s1 hkeep hstep hinv
  obtain ⟨v, N, hPN, hs1⟩ := stepRound_next_inv env cfg s s1 hstep
  subst hs1
  unfold nextState
  dsimp only
  refine ⟨?_, ?_, ?_⟩
  · split
    · exact heavyOnlyLast_drop s.history (roundEntry env s v N) hinv
    · rename_i hcond
      rw [hkeep] at hcond
      have hlen : ¬ (1 < (s.history ++ [roundEntry env s v N]).length) := by
        intro hl
        apply hcond
        simp only [List.length_append, List.length_singleton] at hl ⊢
        simp
        omega
      have hlen2 : (s.history ++ [roundEntry env s v N]).length
          = s.history.length + 1 := by simp
      rw [hlen2] at hlen
      have h0 : s.history.length = 0 := by omega
      have hnil : s.history = [] := List.length_eq_zero.1 h0
      rw [hnil]
      intro x hx
      simp at hx
  · split
    · rw [dropPenultimate_map_N, List.map_append]
      exact ⟨N, rfl⟩
    · rw [List.map_append]
      exact ⟨N, rfl⟩
  · split
    · rw [dropPenultimate_getLastOpt, List.getLast?_concat]
      exact ⟨roundEntry env s v N, rfl, rfl, rfl⟩
    · rw [List.getLast?_concat]
      exact ⟨roundEntry env s v N, rfl, rfl, rfl⟩

/-- helper: the scenario's round-2 sample target evaluates to 5. -/
theorem nextN_eval : nextN 2 5 1 0.4 1 100 = 5 := by
  have h1 : ((1 : ℝ) / ((1 : Nat) : ℝ)) = 1 := by norm_num
  unfold nextN
  rw [h1, Real.rpow_one, Real.rpow_one,
    show (2 : ℝ) * (5 / 1) * 0.4 = 4 by norm_num,
    max_eq_right (by norm_num : (4 : ℝ) ≤ 5),
    min_eq_left (by norm_num : (5 : ℝ) ≤ 100)]

/-- helper: the convergence scenario's first round: volume shrinks from 1
to 0.4, far from convergence. -/
theorem step_shrink0 :
    stepRound envShrink cfgShrink sShrink0 = StepRes.next sShrinkA := by
  have h := stepRound_next_eq envShrink cfgShrink sShrink0 1 5 rfl rfl
  rw [h]
  unfold nextState roundEntry
  norm_num [envShrink, cfgShrink, sShrink0, sShrinkA, eShrink1,
    SwyftCache.grow, SwyftCache.requiresSim]
  rw [show (2 / 5 : ℝ) = 0.4 by norm_num, show (1 / 10 : ℝ) = 0.1 by norm_num]
  exact not_volumeConverged_1_04

/-- helper: the convergence scenario's second round: volume shrinks from
0.4 to 0.36, still above the threshold, and the first round's artifacts
are dropped. -/
theorem step_shrinkA :
    stepRound envShrink cfgShrink sShrinkA = StepRes.next sShrinkB := by
  have h := stepRound_next_eq envShrink cfgShrink sShrinkA 0.4
    (nextN 2 5 1 0.4 1 100) rfl rfl
  rw [h]
  unfold nextState roundEntry
  norm_num [envShrink, cfgShrink, sShrinkA, sShrinkB, eShrink1,
    SwyftCache.grow, SwyftCache.requiresSim, dropPenultimate, blankEntry]
  constructor
  · rw [show (2 / 5 : ℝ) = 0.4 by norm_num,
      show (9 / 25 : ℝ) = 0.36 by norm_num,
      show (1 / 10 : ℝ) = 0.1 by norm_num]
    exact not_volumeConverged_04_036
  · rw [show (2 / 5 : ℝ) = 0.4 by norm_num]
    exact nextN_eval

/-- helper: the full two-round convergence scenario run. -/
theorem run_shrink :
    NestedRatios.run envShrink cfgShrink sShrink0
      = (RunOutcome.finished, sShrinkB) := by
  unfold NestedRatios.run
  rw [show cfgShrink.maxRounds = 2 from rfl]
  rw [show (2 : Nat) = 1 + 1 from rfl, runLoop,
    if_neg (by simp [sShrink0]), step_shrink0]
  dsimp only
  rw [show (1 : Nat) = 0 + 1 from rfl, runLoop,
    if_neg (by simp [sShrinkA]), step_shrinkA]
  dsimp only
  rw [runLoop]

/-- C5 counterexample: a two-round run with `keep_history` false finishes
with a two-entry history in which the first entry — one of the two most
recent — has lost its marginals and constrained prior (only the sample
counts survive), refuting the claim that the two most recent entries
retain their artifacts. -/
theorem c5_history_drop_counterexample :
    (NestedRatios.run envShrink cfgShrink sShrink0).1 = RunOutcome.finished
    ∧ (NestedRatios.run envShrink cfgShrink sShrink0).2.converged = false
    ∧ (NestedRatios.run envShrink cfgShrink sShrink0).2.history.map
        (fun e => (e.marginals.isSome, e.constrPrior.isSome, e.N))
      = [(false, false, 5), (true, true, 5)] := by
  rw [run_shrink]
  refine ⟨rfl, rfl, ?_⟩
  simp [sShrinkB]

/-- C2 witness: the convergence test instantiated on the concrete second
round (0.4 to 0.36) and the exhausted-budget return. -/
theorem c2_convergence_test_check :
    (sShrinkB.converged = true ↔
      volumeConverged 0.4 (envShrink.constrVol sShrinkA.history.length)
        cfgShrink.volumeConvTh)
    ∧ runLoop envShrink cfgShrink 0 sShrink0
        = (RunOutcome.finished, sShrink0) :=
  ⟨c2_convergence_test.1 envShrink cfgShrink sShrinkA 0.4
      (nextN 2 5 1 0.4 1 100) sShrinkB rfl rfl step_shrinkA,
    c2_convergence_test.2.1 envShrink cfgShrink sShrink0⟩

/-- C4 witness: a concrete paused run — three finished records, one grown
pending record, no model bound. -/
theorem c4_missing_model_pause_check :
    runLoop env4 cfg4 1 s4
      = (RunOutcome.missingModel,
        (⟨false, [], ⟨3, 1⟩⟩ : NRState)) := by
  have h := (c4_missing_model_pause env4 cfg4 s4 1 5 0 rfl rfl rfl rfl).1
  simpa [env4, s4, SwyftCache.grow] using h

/-- C5 witness: the amended compaction statement instantiated on the
concrete second round. -/
theorem c5_history_keeps_only_last_check :
    heavyOnlyLast sShrinkB.history
    ∧ (∃ n, sShrinkB.history.map HistEntry.N
        = sShrinkA.history.map HistEntry.N ++ [n]) := by
  have h := c5_history_keeps_only_last envShrink cfgShrink sShrinkA sShrinkB
    rfl step_shrinkA (by intro x hx; simp [sShrinkA] at hx)
  exact ⟨h.1, h.2.1⟩

/-- C8: serializing and deserializing a constructed `Prior` reproduces it
exactly: the same `prior_config`, the same per-parameter `Prior1d`
objects (same tag and arguments, hence the same distribution and the same
sample/to_cube/from_cube behavior), and the mask rebuilt from the same
state (hence the same volume). -/
theorem c8_prior_state_roundtrip :
    ∀ (c : List (String × String × List ℝ)) (m : Option ComboMaskObj)
      (p : PriorObj),
      mkPrior c m = Except.ok p →
      Prior.from_state_dict (Prior.state_dict p) = Except.ok p := by
  intro c m p h
  unfold mkPrior at h
  cases hs : setupPriors c with
  | error e => rw [hs] at h; cases h
  | ok ps =>
    rw [hs] at h
    have hp : p = ⟨c, m, ps⟩ := (Except.ok.inj h).symm
    subst hp
    unfold Prior.from_state_dict Prior.state_dict
    dsimp only
    have hm : (m.map ComboMask.state_dict).map ComboMask.from_state_dict
        = m := by
      cases m with
      | none => rfl
      | some mm => rfl
    rw [hm]
    unfold mkPrior
    rw [hs]

/-- C8 witness: the round trip on a concrete one-parameter uniform prior
with a mask. -/
theorem c8_prior_state_roundtrip_check :
    Prior.from_state_dict (Prior.state_dict priorW) = Except.ok priorW :=
  c8_prior_state_roundtrip configW maskW priorW rfl
